import Mathlib

/-!
Shallow embedding of the Skill Sync chat backend (message ingestion and
conversation synchronization subsystem).

The embedding covers the two write paths (HTTP route `POST /api/chat/messages`
in `routes/chat.js` and the socket `message` event handler in `server.js`),
the history fetch (`GET /api/chat/messages/:userId`) and the conversation
listing (`GET /api/chat/conversations`).

Modelling decisions:
* The Firestore document store is a state record `DB`: a list of message
  documents (in write order), an association list for the `chats` collection
  keyed by document id, and an association list for the `users` collection.
* Firestore auto-ids are modelled by a `nextId` counter; `new Date()` calls
  within a single request handler are modelled as one instant `now` passed to
  the handler (the source calls `new Date()` several times per handler, all
  within the same request).
* JavaScript falsiness of a string (`!receiverId`, `!content`) is emptiness.
* `Array.prototype.sort` with an ascending comparator and Firestore `orderBy`
  are modelled by an insertion sort `sortOn` over an executable boolean
  comparator.
-/

namespace SkillSync

/-- Code-unit comparison of two character lists, as JavaScript compares
strings (lexicographic on code units).  Executable and kernel-reducible. -/
def charListLe : List Char → List Char → Bool
  | [], _ => true
  | _ :: _, [] => false
  | a :: as, b :: bs =>
    if a.toNat < b.toNat then true
    else if b.toNat < a.toNat then false
    else charListLe as bs

/-- JavaScript string comparison `a <= b`. -/
def strLe (a b : String) : Bool := charListLe a.data b.data

/-- `[a, b].sort().join('_')` from both handlers: the two participant ids in
lexicographic order, joined by an underscore.  This is the `chats` document id. -/
def chatKey (a b : String) : String :=
  if strLe a b then a ++ "_" ++ b else b ++ "_" ++ a

/-- ASCII whitespace test used to model `String.prototype.trim`. -/
def isJsSpace (c : Char) : Bool := c = ' ' ∨ c = '\t' ∨ c = '\n' ∨ c = '\r'

/-- Models JavaScript `content.trim()` (on ASCII whitespace). -/
def jsTrim (s : String) : String :=
  ⟨((s.data.dropWhile isJsSpace).reverse.dropWhile isJsSpace).reverse⟩

/-- A document of the `messages` collection, as written by both handlers:
`{ senderId, receiverId, content: content.trim(), timestamp: new Date(),
read: false }` plus the store-assigned document id. -/
structure Message where
  id : Nat
  senderId : String
  receiverId : String
  content : String
  timestamp : Nat
  read : Bool
  deriving Repr, DecidableEq

/-- A document of the `chats` collection, as written by both handlers. -/
structure ChatDoc where
  participant1 : String
  participant2 : String
  lastMessage : String
  lastMessageTime : Nat
  updatedAt : Nat
  deriving Repr, DecidableEq

/-- A document of the `users` collection (read-only for this subsystem). -/
structure UserDoc where
  name : String
  deriving Repr, DecidableEq

/-- The Firestore state visible to this subsystem. -/
structure DB where
  messages : List Message
  chats : List (String × ChatDoc)
  users : List (String × UserDoc)
  nextId : Nat
  deriving Repr, DecidableEq

def emptyDB : DB := { messages := [], chats := [], users := [], nextId := 0 }

/-- The client-supplied body of a send request (`req.body` on the HTTP route,
`data` on the socket event).  Both handlers destructure only `receiverId` and
`content`; `clientSenderId` stands for a `senderId` field a client may also
place in the payload, which the handlers never look at. -/
structure Payload where
  receiverId : String
  content : String
  clientSenderId : Option String
  deriving Repr, DecidableEq

inductive ChatError where
  /-- HTTP 400 `Receiver ID and content are required` / socket `error` event. -/
  | invalidArgument
  deriving Repr, DecidableEq

instance {ε α : Type} [DecidableEq ε] [DecidableEq α] : DecidableEq (Except ε α) :=
  fun a b =>
    match a, b with
    | .error e, .error f =>
      if h : e = f then isTrue (by rw [h]) else isFalse (by intro hh; cases hh; exact h rfl)
    | .ok x, .ok y =>
      if h : x = y then isTrue (by rw [h]) else isFalse (by intro hh; cases hh; exact h rfl)
    | .error _, .ok _ => isFalse (by intro hh; cases hh)
    | .ok _, .error _ => isFalse (by intro hh; cases hh)

/-- `db.collection('chats').doc(key).set(doc, { merge: true })`: every field of
the document is given in both handlers, so the merge write replaces the whole
document (or creates it). -/
def setChat : List (String × ChatDoc) → String → ChatDoc → List (String × ChatDoc)
  | [], k, d => [(k, d)]
  | kv :: rest, k, d => if kv.1 = k then (k, d) :: rest else kv :: setChat rest k d

def lookupChat (l : List (String × ChatDoc)) (k : String) : Option ChatDoc :=
  (l.find? fun kv => decide (kv.1 = k)).map Prod.snd

/-- `router.post('/messages')` from `routes/chat.js`: validate, persist the
message, then upsert the `chats` document for each orientation.  `senderUid` is
`req.user.uid` from the verified bearer token; `now` models `new Date()`.
Returns the response payload and the resulting store; on validation failure
the handler returns before any write, so the store is unchanged. -/
def sendMessageHttp (senderUid : String) (body : Payload) (now : Nat) (s : DB) :
    Except ChatError Message × DB :=
  if body.receiverId = "" ∨ body.content = "" then
    (Except.error ChatError.invalidArgument, s)
  else
    let messageData : Message :=
      { id := s.nextId, senderId := senderUid, receiverId := body.receiverId,
        content := jsTrim body.content, timestamp := now, read := false }
    let chatId1 := chatKey senderUid body.receiverId
    let chatId2 := chatKey body.receiverId senderUid
    let chats1 := setChat s.chats chatId1
      { participant1 := senderUid, participant2 := body.receiverId,
        lastMessage := body.content, lastMessageTime := now, updatedAt := now }
    let chats2 := setChat chats1 chatId2
      { participant1 := body.receiverId, participant2 := senderUid,
        lastMessage := body.content, lastMessageTime := now, updatedAt := now }
    (Except.ok messageData,
     { s with messages := s.messages ++ [messageData], chats := chats2,
              nextId := s.nextId + 1 })

/-- Result of the socket `message` handler: the `message-sent` acknowledgement
emitted back to the sender, and the `message` event payload emitted to the
receiver's room (emitted whether or not anyone is in the room). -/
structure SocketResult where
  ack : Message
  pushed : Message
  deriving Repr, DecidableEq

/-- `socket.on('message')` from `server.js`: validate, persist the message,
upsert the `chats` document twice (both writes use the same `chatId1`), emit
the message to the receiver's room and the acknowledgement to the sender, then
flip `read` to `true` on the stored message if the receiver has at least one
live socket (`io.in(receiverId).fetchSockets()` nonempty).  `socketUserId` is
the identity bound at connect time; `onl` is the set of user ids with a live
connection. -/
def sendMessageSocket (socketUserId : String) (body : Payload) (now : Nat)
    (onl : List String) (s : DB) : Except ChatError SocketResult × DB :=
  if body.receiverId = "" ∨ body.content = "" then
    (Except.error ChatError.invalidArgument, s)
  else
    let messageData : Message :=
      { id := s.nextId, senderId := socketUserId, receiverId := body.receiverId,
        content := jsTrim body.content, timestamp := now, read := false }
    let chatId1 := chatKey socketUserId body.receiverId
    let chats1 := setChat s.chats chatId1
      { participant1 := socketUserId, participant2 := body.receiverId,
        lastMessage := body.content, lastMessageTime := now, updatedAt := now }
    let chats2 := setChat chats1 chatId1
      { participant1 := body.receiverId, participant2 := socketUserId,
        lastMessage := body.content, lastMessageTime := now, updatedAt := now }
    let msgs1 := s.messages ++ [messageData]
    let msgs2 :=
      if body.receiverId ∈ onl then
        msgs1.map fun m => if m.id = messageData.id then { m with read := true } else m
      else msgs1
    (Except.ok { ack := messageData, pushed := messageData },
     { s with messages := msgs2, chats := chats2, nextId := s.nextId + 1 })

/-- Insert into a list that is sorted ascending with respect to `le`. -/
def insertLe {α : Type} (le : α → α → Bool) (a : α) : List α → List α
  | [] => [a]
  | b :: bs => if le b a then b :: insertLe le a bs else a :: b :: bs

/-- Ascending comparator sort; models `Array.prototype.sort` with a numeric
comparator as well as Firestore `orderBy`. -/
def sortOn {α : Type} (le : α → α → Bool) : List α → List α
  | [] => []
  | a :: as => insertLe le a (sortOn le as)

/-- The comparator `(a, b) => timeA - timeB` from the history route. -/
def leTs (a b : Message) : Bool := decide (a.timestamp ≤ b.timestamp)

/-- `router.get('/messages/:userId')` from `routes/chat.js`: run the two
directional queries (each ordered by timestamp ascending), concatenate, sort by
timestamp, batch-mark the unread received messages as read, and respond with
the combined list (built from the query snapshots taken before the batch
update). -/
def getMessages (currentUserId otherUserId : String) (s : DB) :
    List Message × DB :=
  let sentMessages := sortOn leTs (s.messages.filter fun m =>
    decide (m.senderId = currentUserId ∧ m.receiverId = otherUserId))
  let receivedMessages := sortOn leTs (s.messages.filter fun m =>
    decide (m.senderId = otherUserId ∧ m.receiverId = currentUserId))
  let allMessages := sortOn leTs (sentMessages ++ receivedMessages)
  let unreadIds := (receivedMessages.filter fun m => !m.read).map Message.id
  let msgs1 := s.messages.map fun m =>
    if m.id ∈ unreadIds then { m with read := true } else m
  (allMessages, { s with messages := msgs1 })

/-- One entry of the `conversations` array before details are attached. -/
structure ConvListing where
  chatId : String
  otherUserId : String
  lastMessage : String
  lastMessageTime : Nat
  deriving Repr, DecidableEq

/-- One entry of the response of `GET /api/chat/conversations`. -/
structure ConvDetails where
  chatId : String
  otherUserId : String
  lastMessage : String
  lastMessageTime : Nat
  unreadCount : Nat
  otherUser : Option UserDoc
  deriving Repr, DecidableEq

/-- Firestore `orderBy('lastMessageTime', 'desc')` comparator on chat docs. -/
def geTime (a b : String × ChatDoc) : Bool :=
  decide (b.2.lastMessageTime ≤ a.2.lastMessageTime)

/-- `router.get('/conversations')` from `routes/chat.js`: query the chats where
the user is `participant1` (descending by `lastMessageTime`), then those where
the user is `participant2` (descending), concatenate in that order, and attach
to each a freshly computed unread count and the other user's profile. -/
def getConversations (currentUserId : String) (s : DB) : List ConvDetails :=
  let chatsQuery1 := sortOn geTime (s.chats.filter fun kv =>
    decide (kv.2.participant1 = currentUserId))
  let chatsQuery2 := sortOn geTime (s.chats.filter fun kv =>
    decide (kv.2.participant2 = currentUserId))
  let conversations :=
    (chatsQuery1.map fun kv =>
      ConvListing.mk kv.1 kv.2.participant2 kv.2.lastMessage kv.2.lastMessageTime)
    ++ (chatsQuery2.map fun kv =>
      ConvListing.mk kv.1 kv.2.participant1 kv.2.lastMessage kv.2.lastMessageTime)
  conversations.map fun conv =>
    { chatId := conv.chatId, otherUserId := conv.otherUserId,
      lastMessage := conv.lastMessage, lastMessageTime := conv.lastMessageTime,
      unreadCount := (s.messages.filter fun m =>
        decide (m.senderId = conv.otherUserId ∧ m.receiverId = currentUserId ∧
          m.read = false)).length,
      otherUser := (s.users.find? fun kv => decide (kv.1 = conv.otherUserId)).map
        Prod.snd }

/-- The state-changing operations of the subsystem (the conversation listing
and the user listing never write). -/
inductive Op where
  | httpSend (senderUid : String) (body : Payload) (now : Nat)
  | socketSend (socketUserId : String) (body : Payload) (now : Nat) (onl : List String)
  | historyFetch (currentUserId otherUserId : String)
  deriving Repr, DecidableEq

def applyOp : Op → DB → DB
  | .httpSend u b n, s => (sendMessageHttp u b n s).2
  | .socketSend u b n onl, s => (sendMessageSocket u b n onl s).2
  | .historyFetch c o, s => (getMessages c o s).2

/-! ### Helper lemmas about the string order and `chatKey` -/

theorem charListLe_total (as bs : List Char) :
    charListLe as bs = true ∨ charListLe bs as = true := by
  induction as generalizing bs with
  | nil => left; rfl
  | cons a as ih =>
    cases bs with
    | nil => right; rfl
    | cons b bs =>
      rcases Nat.lt_trichotomy a.toNat b.toNat with h | h | h
      · left; simp [charListLe, h]
      · have h1 : ¬ a.toNat < b.toNat := by omega
        have h2 : ¬ b.toNat < a.toNat := by omega
        simpa [charListLe, h1, h2] using ih bs
      · right; simp [charListLe, h]

theorem charListLe_antisymm (as bs : List Char) (h1 : charListLe as bs = true)
    (h2 : charListLe bs as = true) : as = bs := by
  induction as generalizing bs with
  | nil =>
    cases bs with
    | nil => rfl
    | cons b bs => simp [charListLe] at h2
  | cons a as ih =>
    cases bs with
    | nil => simp [charListLe] at h1
    | cons b bs =>
      rcases Nat.lt_trichotomy a.toNat b.toNat with h | h | h
      · have h' : ¬ b.toNat < a.toNat := by omega
        simp [charListLe, h, h'] at h2
      · have hab : a = b := Char.eq_of_val_eq (UInt32.ext h)
        have h1' : ¬ a.toNat < b.toNat := by omega
        have h2' : ¬ b.toNat < a.toNat := by omega
        simp only [charListLe, if_neg h1', if_neg h2'] at h1
        simp only [charListLe, if_neg h2', if_neg h1'] at h2
        rw [hab, ih bs h1 h2]
      · have h' : ¬ a.toNat < b.toNat := by omega
        simp [charListLe, h, h'] at h1

theorem strLe_antisymm (a b : String) (h1 : strLe a b = true)
    (h2 : strLe b a = true) : a = b := by
  cases a with
  | mk as =>
    cases b with
    | mk bs =>
      have := charListLe_antisymm as bs h1 h2
      rw [this]

/-- Both handlers compute the same chat document id for the pair, whichever
way round the two participants are listed. -/
theorem chatKey_comm (a b : String) : chatKey a b = chatKey b a := by
  unfold chatKey
  by_cases h1 : strLe a b = true
  · by_cases h2 : strLe b a = true
    · rw [if_pos h1, if_pos h2, strLe_antisymm a b h1 h2]
    · rw [if_pos h1, if_neg h2]
  · rcases charListLe_total a.data b.data with h | h
    · exact absurd h h1
    · rw [if_neg h1, if_pos (show strLe b a = true from h)]

/-! ### Helper lemmas about `setChat` and `lookupChat` -/

theorem lookupChat_setChat_self (l : List (String × ChatDoc)) (k : String)
    (d : ChatDoc) : lookupChat (setChat l k d) k = some d := by
  induction l with
  | nil => simp [setChat, lookupChat]
  | cons kv rest ih =>
    unfold setChat
    by_cases h : kv.1 = k
    · rw [if_pos h]; simp [lookupChat]
    · rw [if_neg h]
      unfold lookupChat at ih ⊢
      rw [List.find?_cons_of_neg _ (by simpa using h)]
      exact ih

theorem keys_setChat (l : List (String × ChatDoc)) (k : String) (d : ChatDoc) :
    (setChat l k d).map Prod.fst =
      if k ∈ l.map Prod.fst then l.map Prod.fst else l.map Prod.fst ++ [k] := by
  induction l with
  | nil => simp [setChat]
  | cons kv rest ih =>
    unfold setChat
    by_cases h : kv.1 = k
    · rw [if_pos h]
      have : k ∈ (kv :: rest).map Prod.fst := by simp [h.symm]
      rw [if_pos this]
      simp [h]
    · rw [if_neg h]
      by_cases hk : k ∈ rest.map Prod.fst
      · have : k ∈ (kv :: rest).map Prod.fst := by simp [hk]
        rw [if_pos this]
        simp only [List.map_cons, ih, if_pos hk]
      · have : ¬ k ∈ (kv :: rest).map Prod.fst := by
          simp only [List.map_cons]
          intro hmem
          rcases List.mem_cons.mp hmem with hh | hh
          · exact h hh.symm
          · exact hk hh
        rw [if_neg this]
        simp only [List.map_cons, ih, if_neg hk, List.cons_append]

theorem mem_keys_setChat (l : List (String × ChatDoc)) (k : String) (d : ChatDoc) :
    k ∈ (setChat l k d).map Prod.fst := by
  rw [keys_setChat]
  by_cases h : k ∈ l.map Prod.fst
  · rwa [if_pos h]
  · rw [if_neg h]; simp

/-! ### Helper lemmas about `sortOn` -/

theorem insertLe_perm {α : Type} (le : α → α → Bool) (a : α) (l : List α) :
    List.Perm (insertLe le a l) (a :: l) := by
  induction l with
  | nil => simp [insertLe]
  | cons b bs ih =>
    unfold insertLe
    by_cases h : le b a = true
    · rw [if_pos h]
      exact List.Perm.trans (List.Perm.cons b ih) (List.Perm.swap a b bs)
    · rw [if_neg h]

theorem sortOn_perm {α : Type} (le : α → α → Bool) (l : List α) :
    List.Perm (sortOn le l) l := by
  induction l with
  | nil => simp [sortOn]
  | cons a as ih =>
    exact List.Perm.trans (insertLe_perm le a (sortOn le as)) (List.Perm.cons a ih)

theorem mem_insertLe {α : Type} (le : α → α → Bool) (a x : α) (l : List α) :
    x ∈ insertLe le a l ↔ x = a ∨ x ∈ l := by
  have := (insertLe_perm le a l).mem_iff (a := x)
  simpa using this

theorem insertLe_pairwise {α : Type} (le : α → α → Bool)
    (htrans : ∀ x y z, le x y = true → le y z = true → le x z = true)
    (htotal : ∀ x y, le x y = true ∨ le y x = true)
    (a : α) (l : List α) (h : l.Pairwise fun x y => le x y = true) :
    (insertLe le a l).Pairwise fun x y => le x y = true := by
  induction l with
  | nil => simp [insertLe]
  | cons b bs ih =>
    rcases List.pairwise_cons.mp h with ⟨hb, hbs⟩
    unfold insertLe
    by_cases hba : le b a = true
    · rw [if_pos hba]
      refine List.pairwise_cons.mpr ⟨?_, ih hbs⟩
      intro x hx
      rcases (mem_insertLe le a x bs).mp hx with rfl | hxbs
      · exact hba
      · exact hb x hxbs
    · rw [if_neg hba]
      have hab : le a b = true := (htotal a b).resolve_right hba
      refine List.pairwise_cons.mpr ⟨?_, h⟩
      intro x hx
      rcases List.mem_cons.mp hx with rfl | hxbs
      · exact hab
      · exact htrans a b x hab (hb x hxbs)

theorem sortOn_pairwise {α : Type} (le : α → α → Bool)
    (htrans : ∀ x y z, le x y = true → le y z = true → le x z = true)
    (htotal : ∀ x y, le x y = true ∨ le y x = true)
    (l : List α) : (sortOn le l).Pairwise fun x y => le x y = true := by
  induction l with
  | nil => simp [sortOn]
  | cons a as ih => exact insertLe_pairwise le htrans htotal a (sortOn le as) ih

theorem leTs_trans (x y z : Message) (h1 : leTs x y = true) (h2 : leTs y z = true) :
    leTs x z = true := by
  simp only [leTs, decide_eq_true_iff] at h1 h2 ⊢
  omega

theorem leTs_total (x y : Message) : leTs x y = true ∨ leTs y x = true := by
  simp only [leTs, decide_eq_true_iff]
  omega

theorem geTime_trans (x y z : String × ChatDoc) (h1 : geTime x y = true)
    (h2 : geTime y z = true) : geTime x z = true := by
  simp only [geTime, decide_eq_true_iff] at h1 h2 ⊢
  omega

theorem geTime_total (x y : String × ChatDoc) :
    geTime x y = true ∨ geTime y x = true := by
  simp only [geTime, decide_eq_true_iff]
  omega

/-! ### Unfolding lemmas for successful sends -/

/-- The message document created by a successful send. -/
def newMessage (senderUid : String) (body : Payload) (now : Nat) (s : DB) : Message :=
  { id := s.nextId, senderId := senderUid, receiverId := body.receiverId,
    content := jsTrim body.content, timestamp := now, read := false }

/-- The chat document written for the orientation `participant1 = p1`. -/
def chatDocFor (p1 p2 : String) (body : Payload) (now : Nat) : ChatDoc :=
  { participant1 := p1, participant2 := p2, lastMessage := body.content,
    lastMessageTime := now, updatedAt := now }

theorem sendMessageHttp_ok (u : String) (body : Payload) (now : Nat) (s : DB)
    (hr : body.receiverId ≠ "") (hc : body.content ≠ "") :
    sendMessageHttp u body now s =
      (Except.ok (newMessage u body now s),
       { s with
          messages := s.messages ++ [newMessage u body now s],
          chats := setChat
            (setChat s.chats (chatKey u body.receiverId)
              (chatDocFor u body.receiverId body now))
            (chatKey body.receiverId u)
            (chatDocFor body.receiverId u body now),
          nextId := s.nextId + 1 }) := by
  unfold sendMessageHttp newMessage chatDocFor
  rw [if_neg (not_or.mpr ⟨hr, hc⟩)]

theorem sendMessageSocket_ok (u : String) (body : Payload) (now : Nat)
    (onl : List String) (s : DB) (hr : body.receiverId ≠ "") (hc : body.content ≠ "") :
    sendMessageSocket u body now onl s =
      (Except.ok { ack := newMessage u body now s, pushed := newMessage u body now s },
       { s with
          messages :=
            if body.receiverId ∈ onl then
              (s.messages ++ [newMessage u body now s]).map fun m =>
                if m.id = s.nextId then { m with read := true } else m
            else s.messages ++ [newMessage u body now s],
          chats := setChat
            (setChat s.chats (chatKey u body.receiverId)
              (chatDocFor u body.receiverId body now))
            (chatKey u body.receiverId)
            (chatDocFor body.receiverId u body now),
          nextId := s.nextId + 1 }) := by
  unfold sendMessageSocket newMessage chatDocFor
  rw [if_neg (not_or.mpr ⟨hr, hc⟩)]

/-! ### The history fetch marks inbound messages read in the store -/

theorem inbound_read_after_history (c o : String) (s : DB) (m : Message)
    (hm : m ∈ (getMessages c o s).2.messages)
    (hs : m.senderId = o) (hr : m.receiverId = c) : m.read = true := by
  have hm' : m ∈ s.messages.map fun x =>
      if x.id ∈ ((sortOn leTs (s.messages.filter fun y =>
            decide (y.senderId = o ∧ y.receiverId = c))).filter fun y =>
            !y.read).map Message.id
      then { x with read := true } else x := by
    simpa [getMessages] using hm
  rcases List.mem_map.mp hm' with ⟨m0, hm0, hfm⟩
  by_cases hin : m0.id ∈ ((sortOn leTs (s.messages.filter fun y =>
      decide (y.senderId = o ∧ y.receiverId = c))).filter fun y => !y.read).map Message.id
  · rw [if_pos hin] at hfm
    rw [← hfm]
  · rw [if_neg hin] at hfm
    subst hfm
    by_contra hread
    apply hin
    apply List.mem_map.mpr
    refine ⟨m0, ?_, rfl⟩
    apply List.mem_filter.mpr
    constructor
    · apply ((sortOn_perm leTs _).mem_iff).mpr
      apply List.mem_filter.mpr
      exact ⟨hm0, by simp [hs, hr]⟩
    · simp [Bool.eq_false_iff.mpr hread]

/-! ### Error-path unfolding lemmas -/

theorem sendMessageHttp_err (u : String) (body : Payload) (now : Nat) (s : DB)
    (h : body.receiverId = "" ∨ body.content = "") :
    sendMessageHttp u body now s = (Except.error ChatError.invalidArgument, s) := by
  unfold sendMessageHttp
  rw [if_pos h]

theorem sendMessageSocket_err (u : String) (body : Payload) (now : Nat)
    (onl : List String) (s : DB) (h : body.receiverId = "" ∨ body.content = "") :
    sendMessageSocket u body now onl s = (Except.error ChatError.invalidArgument, s) := by
  unfold sendMessageSocket
  rw [if_pos h]

theorem http_sender_eq (u : String) (body : Payload) (now : Nat) (s : DB)
    (m : Message) (hm : (sendMessageHttp u body now s).1 = Except.ok m) :
    m.senderId = u := by
  by_cases h : body.receiverId = "" ∨ body.content = ""
  · rw [sendMessageHttp_err u body now s h] at hm
    exact absurd hm (by simp)
  · have hr : body.receiverId ≠ "" := fun hh => h (Or.inl hh)
    have hc : body.content ≠ "" := fun hh => h (Or.inr hh)
    rw [sendMessageHttp_ok u body now s hr hc] at hm
    rw [← Except.ok.inj hm]
    rfl

theorem socket_sender_eq (u : String) (body : Payload) (now : Nat)
    (onl : List String) (s : DB) (r : SocketResult)
    (hm : (sendMessageSocket u body now onl s).1 = Except.ok r) :
    r.ack.senderId = u := by
  by_cases h : body.receiverId = "" ∨ body.content = ""
  · rw [sendMessageSocket_err u body now onl s h] at hm
    exact absurd hm (by simp)
  · have hr : body.receiverId ≠ "" := fun hh => h (Or.inl hh)
    have hc : body.content ≠ "" := fun hh => h (Or.inr hh)
    rw [sendMessageSocket_ok u body now onl s hr hc] at hm
    rw [← Except.ok.inj hm]
    rfl

/-! ### Unread counts -/

/-- The messages from `other` to `u` that are still unread: exactly the query
used by the conversations route to compute `unreadCount`. -/
def inboundUnread (u other : String) (msgs : List Message) : List Message :=
  msgs.filter fun m =>
    decide (m.senderId = other ∧ m.receiverId = u ∧ m.read = false)

theorem length_filter_le_of_mem {α : Type} (l : List α) (p q : α → Bool)
    (h : ∀ a ∈ l, p a = true → q a = true) :
    (l.filter p).length ≤ (l.filter q).length := by
  induction l with
  | nil => simp
  | cons a as ih =>
    have ih' := ih fun x hx => h x (List.mem_cons_of_mem a hx)
    by_cases hp : p a = true
    · rw [List.filter_cons_of_pos hp,
        List.filter_cons_of_pos (h a (List.mem_cons_self a as) hp)]
      simpa using ih'
    · rw [List.filter_cons_of_neg hp]
      by_cases hq : q a = true
      · rw [List.filter_cons_of_pos hq]
        exact Nat.le_succ_of_le ih'
      · rw [List.filter_cons_of_neg hq]
        exact ih'

/-- Every entry of the conversations response carries an unread count computed
live from the message store at query time. -/
theorem unreadCount_eq (u : String) (s : DB) (cv : ConvDetails)
    (hcv : cv ∈ getConversations u s) :
    cv.unreadCount = (inboundUnread u cv.otherUserId s.messages).length := by
  unfold getConversations at hcv
  rcases List.mem_map.mp hcv with ⟨conv, _, hconv⟩
  rw [← hconv]
  rfl

theorem unread_zero_after_history (c o : String) (s : DB) :
    inboundUnread c o (getMessages c o s).2.messages = [] := by
  apply List.filter_eq_nil_iff.mpr
  intro m hm
  simp only [decide_eq_true_iff, not_and]
  intro hs hr
  have := inbound_read_after_history c o s m hm hs hr
  simp [this]

/-! ### Ghost-state transition system for the fetched/unread bound

`fetchedIds` records the ids of the inbound messages that some history call
has already returned to their receiver; it is ghost state layered on top of
the operations, used to state that an unread count never exceeds the number
of inbound messages not yet fetched. -/

structure GState where
  db : DB
  fetchedIds : List Nat
  deriving Repr, DecidableEq

def applyOpG (op : Op) (g : GState) : GState :=
  match op with
  | .historyFetch c o =>
      { db := applyOp op g.db,
        fetchedIds := g.fetchedIds ++
          ((g.db.messages.filter fun m =>
            decide (m.senderId = o ∧ m.receiverId = c)).map Message.id) }
  | _ => { db := applyOp op g.db, fetchedIds := g.fetchedIds }

def initG : GState := { db := emptyDB, fetchedIds := [] }

/-- Invariant tying the ghost state to the store: fetched messages are read,
all ids are below the id counter, and stored ids are distinct. -/
def invParts (msgs : List Message) (nid : Nat) (fids : List Nat) : Prop :=
  (∀ m ∈ msgs, m.id ∈ fids → m.read = true) ∧
  (∀ m ∈ msgs, m.id < nid) ∧
  (∀ i ∈ fids, i < nid) ∧
  (msgs.map Message.id).Nodup

def GInv (g : GState) : Prop := invParts g.db.messages g.db.nextId g.fetchedIds

theorem gInv_init : GInv initG := by
  refine ⟨?_, ?_, ?_, ?_⟩ <;> simp [initG, emptyDB]

theorem invParts_append (msgs : List Message) (nid : Nat) (fids : List Nat)
    (new : Message) (h : invParts msgs nid fids) (hnew : new.id = nid) :
    invParts (msgs ++ [new]) (nid + 1) fids := by
  obtain ⟨h1, h2, h3, h4⟩ := h
  refine ⟨?_, ?_, ?_, ?_⟩
  · intro m hm hf
    rcases List.mem_append.mp hm with hm | hm
    · exact h1 m hm hf
    · simp only [List.mem_singleton] at hm
      subst hm
      rw [hnew] at hf
      exact absurd (h3 _ hf) (by omega)
  · intro m hm
    rcases List.mem_append.mp hm with hm | hm
    · exact Nat.lt_succ_of_lt (h2 m hm)
    · simp only [List.mem_singleton] at hm
      subst hm
      omega
  · intro i hi
    exact Nat.lt_succ_of_lt (h3 i hi)
  · rw [List.map_append, List.nodup_append]
    refine ⟨h4, by simp, ?_⟩
    intro a ha hb
    rcases List.mem_map.mp ha with ⟨m, hm, rfl⟩
    simp only [List.map_cons, List.map_nil, List.mem_cons, List.not_mem_nil,
      or_false] at hb
    have := h2 m hm
    rw [hb, hnew] at this
    omega

theorem invParts_flip (msgs : List Message) (nid : Nat) (fids : List Nat)
    (P : Message → Prop) [DecidablePred P] (h : invParts msgs nid fids) :
    invParts (msgs.map fun m => if P m then { m with read := true } else m)
      nid fids := by
  obtain ⟨h1, h2, h3, h4⟩ := h
  have hid : ∀ m : Message,
      (if P m then { m with read := true } else m).id = m.id := by
    intro m
    by_cases hp : P m <;> simp [hp]
  have hids : (msgs.map fun m =>
      if P m then { m with read := true } else m).map Message.id =
      msgs.map Message.id := by
    rw [List.map_map]
    exact List.map_congr_left fun a _ => hid a
  refine ⟨?_, ?_, ?_, ?_⟩
  · intro m hm hf
    rcases List.mem_map.mp hm with ⟨m0, hm0, rfl⟩
    rw [hid m0] at hf
    have hr := h1 m0 hm0 hf
    by_cases hp : P m0 <;> simp [hp, hr]
  · intro m hm
    rcases List.mem_map.mp hm with ⟨m0, hm0, rfl⟩
    rw [hid m0]
    exact h2 m0 hm0
  · exact h3
  · rw [hids]
    exact h4

theorem gInv_send_http (u : String) (b : Payload) (n : Nat) (g : GState)
    (h : GInv g) :
    GInv { db := (sendMessageHttp u b n g.db).2, fetchedIds := g.fetchedIds } := by
  by_cases hv : b.receiverId = "" ∨ b.content = ""
  · rw [sendMessageHttp_err u b n g.db hv]
    exact h
  · have hr : b.receiverId ≠ "" := fun hh => hv (Or.inl hh)
    have hc : b.content ≠ "" := fun hh => hv (Or.inr hh)
    rw [sendMessageHttp_ok u b n g.db hr hc]
    exact invParts_append g.db.messages g.db.nextId g.fetchedIds
      (newMessage u b n g.db) h rfl

theorem gInv_send_socket (u : String) (b : Payload) (n : Nat) (onl : List String)
    (g : GState) (h : GInv g) :
    GInv { db := (sendMessageSocket u b n onl g.db).2, fetchedIds := g.fetchedIds } := by
  by_cases hv : b.receiverId = "" ∨ b.content = ""
  · rw [sendMessageSocket_err u b n onl g.db hv]
    exact h
  · have hr : b.receiverId ≠ "" := fun hh => hv (Or.inl hh)
    have hc : b.content ≠ "" := fun hh => hv (Or.inr hh)
    rw [sendMessageSocket_ok u b n onl g.db hr hc]
    unfold GInv
    by_cases hon : b.receiverId ∈ onl
    · simp only [if_pos hon]
      exact invParts_flip _ _ _ (fun m => m.id = g.db.nextId)
        (invParts_append g.db.messages g.db.nextId g.fetchedIds
          (newMessage u b n g.db) h rfl)
    · simp only [if_neg hon]
      exact invParts_append g.db.messages g.db.nextId g.fetchedIds
        (newMessage u b n g.db) h rfl

/-- The ids the history route batch-marks as read. -/
def unreadIdsOf (c o : String) (s : DB) : List Nat :=
  ((sortOn leTs (s.messages.filter fun y =>
    decide (y.senderId = o ∧ y.receiverId = c))).filter fun y => !y.read).map
    Message.id

theorem getMessages_snd_messages (c o : String) (s : DB) :
    (getMessages c o s).2.messages = s.messages.map fun x =>
      if x.id ∈ unreadIdsOf c o s then { x with read := true } else x := rfl

theorem gInv_history (c o : String) (g : GState) (h : GInv g) :
    GInv (applyOpG (Op.historyFetch c o) g) := by
  obtain ⟨h1, h2, h3, h4⟩ := h
  have hchar : ∀ m ∈ (getMessages c o g.db).2.messages,
      ∃ m0 ∈ g.db.messages, m.id = m0.id ∧ m.senderId = m0.senderId ∧
        m.receiverId = m0.receiverId ∧ (m0.read = true → m.read = true) := by
    intro m hm
    rw [getMessages_snd_messages] at hm
    rcases List.mem_map.mp hm with ⟨m0, hm0, rfl⟩
    by_cases hp : m0.id ∈ unreadIdsOf c o g.db
    · simp only [if_pos hp]
      exact ⟨m0, hm0, rfl, rfl, rfl, by simp⟩
    · simp only [if_neg hp]
      exact ⟨m0, hm0, rfl, rfl, rfl, fun hh => hh⟩
  have hids : (getMessages c o g.db).2.messages.map Message.id =
      g.db.messages.map Message.id := by
    rw [getMessages_snd_messages, List.map_map]
    apply List.map_congr_left
    intro a _
    by_cases hp : a.id ∈ unreadIdsOf c o g.db <;> simp [hp]
  show invParts (getMessages c o g.db).2.messages g.db.nextId
    (g.fetchedIds ++ ((g.db.messages.filter fun m =>
      decide (m.senderId = o ∧ m.receiverId = c)).map Message.id))
  refine ⟨?_, ?_, ?_, ?_⟩
  · intro m hm hf
    rcases List.mem_append.mp hf with hf | hf
    · rcases hchar m hm with ⟨m0, hm0, hid, _, _, hmono⟩
      exact hmono (h1 m0 hm0 (hid ▸ hf))
    · rcases List.mem_map.mp hf with ⟨mi, hmi, hmid⟩
      have hmi_mem : mi ∈ g.db.messages := (List.mem_filter.mp hmi).1
      have hmi_in : mi.senderId = o ∧ mi.receiverId = c := by
        have := (List.mem_filter.mp hmi).2
        simpa using this
      rcases hchar m hm with ⟨m0, hm0, hid, hsend, hrecv, _⟩
      have hm0mi : m0 = mi :=
        List.inj_on_of_nodup_map h4 hm0 hmi_mem (by rw [← hid, ← hmid])
      apply inbound_read_after_history c o g.db m hm
      · rw [hsend, hm0mi, hmi_in.1]
      · rw [hrecv, hm0mi, hmi_in.2]
  · intro m hm
    rcases hchar m hm with ⟨m0, hm0, hid, _, _, _⟩
    rw [hid]
    exact h2 m0 hm0
  · intro i hi
    rcases List.mem_append.mp hi with hi | hi
    · exact h3 i hi
    · rcases List.mem_map.mp hi with ⟨mi, hmi, rfl⟩
      exact h2 mi (List.mem_filter.mp hmi).1
  · rw [hids]
    exact h4

theorem gInv_applyOpG (op : Op) (g : GState) (h : GInv g) : GInv (applyOpG op g) := by
  cases op with
  | httpSend u b n => exact gInv_send_http u b n g h
  | socketSend u b n onl => exact gInv_send_socket u b n onl g h
  | historyFetch c o => exact gInv_history c o g h

/-- Unread inbound messages are a subset of the not-yet-fetched inbound
messages: an unread message cannot have been fetched. -/
theorem unread_le_unfetched (g : GState) (h : GInv g) (u other : String) :
    (inboundUnread u other g.db.messages).length ≤
      (g.db.messages.filter fun m => decide (m.senderId = other ∧
        m.receiverId = u ∧ ¬ m.id ∈ g.fetchedIds)).length := by
  obtain ⟨h1, _, _, _⟩ := h
  unfold inboundUnread
  apply length_filter_le_of_mem
  intro m hm hp
  simp only [decide_eq_true_iff] at hp ⊢
  rcases hp with ⟨hs, hr, hread⟩
  refine ⟨hs, hr, fun hf => ?_⟩
  have := h1 m hm hf
  rw [this] at hread
  simp at hread

/-! ### Post-state chats of the two send paths -/

theorem chats_after_http (u : String) (body : Payload) (now : Nat) (s : DB)
    (hr : body.receiverId ≠ "") (hc : body.content ≠ "") :
    (sendMessageHttp u body now s).2.chats =
      setChat (setChat s.chats (chatKey u body.receiverId)
        (chatDocFor u body.receiverId body now))
        (chatKey body.receiverId u) (chatDocFor body.receiverId u body now) := by
  rw [sendMessageHttp_ok u body now s hr hc]

theorem chats_after_socket (u : String) (body : Payload) (now : Nat)
    (onl : List String) (s : DB)
    (hr : body.receiverId ≠ "") (hc : body.content ≠ "") :
    (sendMessageSocket u body now onl s).2.chats =
      setChat (setChat s.chats (chatKey u body.receiverId)
        (chatDocFor u body.receiverId body now))
        (chatKey u body.receiverId) (chatDocFor body.receiverId u body now) := by
  rw [sendMessageSocket_ok u body now onl s hr hc]

/-! ### Concrete demonstration stores -/

/-- A store holding one unread message from bob to alice. -/
def historyDemoDB : DB :=
  { emptyDB with messages := [⟨0, "bob", "alice", "hi", 1, false⟩], nextId := 1 }

/-- Two chat documents whose last-message times straddle the two query
segments of the conversations route. -/
def convDemoDB : DB :=
  { emptyDB with chats :=
      [("b_u", ⟨"u", "b", "x", 50, 50⟩), ("a_u", ⟨"a", "u", "y", 100, 100⟩)] }

/-- The store after bob sends "hi" to alice over the HTTP channel. -/
def demoAfterSend : DB := (sendMessageHttp "bob" ⟨"alice", "hi", none⟩ 1 emptyDB).2

/-- Two messages between the same pair whose position in the store is the
reverse of their timestamp order. -/
def orderingDemoDB : DB :=
  { emptyDB with
    messages := [⟨0, "alice", "bob", "later", 5, false⟩,
                 ⟨1, "alice", "bob", "earlier", 2, false⟩],
    nextId := 2 }

/-! ### Claim C1 -/

/-- The shape claim C1 asserts of the chats collection after an accepted
message: two distinct summary records, one oriented self=sender and one
oriented self=receiver, each carrying the message content and its timestamp. -/
def twoOrientationRecords (s : DB) (sender receiver content : String)
    (ts : Nat) : Prop :=
  ∃ kv1 ∈ s.chats, ∃ kv2 ∈ s.chats, kv1 ≠ kv2 ∧
    kv1.2.participant1 = sender ∧ kv1.2.participant2 = receiver ∧
    kv1.2.lastMessage = content ∧ kv1.2.lastMessageTime = ts ∧
    kv2.2.participant1 = receiver ∧ kv2.2.participant2 = sender ∧
    kv2.2.lastMessage = content ∧ kv2.2.lastMessageTime = ts

/-- Claim C1 is false on the code: after alice sends "hi" to bob at time 100
on an empty store, the chats collection does not hold two distinct
orientation records for the pair — both upserts use the same document id
`[senderId, receiverId].sort().join('_')`, so only one record exists. -/
theorem chat_two_records_cex :
    ¬ twoOrientationRecords
      (sendMessageHttp "alice" ⟨"bob", "hi", none⟩ 100 emptyDB).2
      "alice" "bob" "hi" 100 := by
  unfold twoOrientationRecords
  decide

/-- Claim C1 (amended): on either channel, both summary upserts of an
accepted message target the single document keyed by the sorted pair, so
exactly one summary record per pair is (created or) rewritten; its final
contents carry the receiver-first orientation of the second write, the raw
(untrimmed) content, and the send-time timestamp; the two channels leave the
chats collection in the same state. -/
theorem chat_single_record_upserted (u : String) (body : Payload) (now : Nat)
    (onl : List String) (s : DB)
    (hr : body.receiverId ≠ "") (hc : body.content ≠ "") :
    chatKey u body.receiverId = chatKey body.receiverId u ∧
    lookupChat (sendMessageHttp u body now s).2.chats (chatKey u body.receiverId) =
      some (chatDocFor body.receiverId u body now) ∧
    (sendMessageHttp u body now s).2.chats.map Prod.fst =
      (if chatKey u body.receiverId ∈ s.chats.map Prod.fst
       then s.chats.map Prod.fst
       else s.chats.map Prod.fst ++ [chatKey u body.receiverId]) ∧
    (sendMessageSocket u body now onl s).2.chats =
      (sendMessageHttp u body now s).2.chats := by
  refine ⟨chatKey_comm u body.receiverId, ?_, ?_, ?_⟩
  · rw [chats_after_http u body now s hr hc, ← chatKey_comm u body.receiverId]
    exact lookupChat_setChat_self _ _ _
  · rw [chats_after_http u body now s hr hc, ← chatKey_comm u body.receiverId,
      keys_setChat, if_pos (mem_keys_setChat _ _ _), keys_setChat]
  · rw [chats_after_socket u body now onl s hr hc,
      chats_after_http u body now s hr hc, chatKey_comm u body.receiverId]

theorem chat_single_record_upserted_witness :
    chatKey "alice" "bob" = chatKey "bob" "alice" ∧
    lookupChat (sendMessageHttp "alice" ⟨"bob", "hi", none⟩ 100 emptyDB).2.chats
        (chatKey "alice" "bob") =
      some (chatDocFor "bob" "alice" ⟨"bob", "hi", none⟩ 100) ∧
    (sendMessageHttp "alice" ⟨"bob", "hi", none⟩ 100 emptyDB).2.chats.map Prod.fst =
      (if chatKey "alice" "bob" ∈ emptyDB.chats.map Prod.fst
       then emptyDB.chats.map Prod.fst
       else emptyDB.chats.map Prod.fst ++ [chatKey "alice" "bob"]) ∧
    (sendMessageSocket "alice" ⟨"bob", "hi", none⟩ 100 [] emptyDB).2.chats =
      (sendMessageHttp "alice" ⟨"bob", "hi", none⟩ 100 emptyDB).2.chats :=
  chat_single_record_upserted "alice" ⟨"bob", "hi", none⟩ 100 [] emptyDB
    (by decide) (by decide)

/-! ### Claim C2 -/

/-- Claim C2 is false on the code: for the same sender, receiver and content,
with the receiver online, the socket path flips the stored message to
`read = true` while the HTTP path leaves it `read = false` — the HTTP route
performs no delivery push and no read flip at all. -/
theorem channel_equivalence_cex :
    (sendMessageSocket "alice" ⟨"bob", "hi", none⟩ 5 ["bob"] emptyDB).2.messages ≠
      (sendMessageHttp "alice" ⟨"bob", "hi", none⟩ 5 emptyDB).2.messages := by
  decide

/-- Claim C2 (amended): the two entry channels share validation, message
persistence and summary updates — same created message, same chats state,
same id counter, and identical final stores whenever the receiver has no live
connection; they differ in that only the socket path flips `read` on the
stored message when the receiver is online (the HTTP path never delivers or
flips). -/
theorem channel_partial_equivalence (u : String) (body : Payload) (now : Nat)
    (onl : List String) (s : DB)
    (hr : body.receiverId ≠ "") (hc : body.content ≠ "") :
    (sendMessageHttp u body now s).1 = Except.ok (newMessage u body now s) ∧
    (sendMessageSocket u body now onl s).1 =
      Except.ok { ack := newMessage u body now s, pushed := newMessage u body now s } ∧
    (sendMessageSocket u body now onl s).2.chats =
      (sendMessageHttp u body now s).2.chats ∧
    (sendMessageSocket u body now onl s).2.nextId =
      (sendMessageHttp u body now s).2.nextId ∧
    ((¬ body.receiverId ∈ onl) →
      (sendMessageSocket u body now onl s).2 = (sendMessageHttp u body now s).2) ∧
    (body.receiverId ∈ onl →
      (sendMessageSocket u body now onl s).2.messages =
        (sendMessageHttp u body now s).2.messages.map fun m =>
          if m.id = s.nextId then { m with read := true } else m) := by
  refine ⟨?_, ?_, ?_, ?_, ?_, ?_⟩
  · rw [sendMessageHttp_ok u body now s hr hc]
  · rw [sendMessageSocket_ok u body now onl s hr hc]
  · rw [chats_after_socket u body now onl s hr hc,
      chats_after_http u body now s hr hc, chatKey_comm u body.receiverId]
  · rw [sendMessageSocket_ok u body now onl s hr hc,
      sendMessageHttp_ok u body now s hr hc]
  · intro hoff
    rw [sendMessageSocket_ok u body now onl s hr hc,
      sendMessageHttp_ok u body now s hr hc]
    simp only [if_neg hoff]
    rw [chatKey_comm u body.receiverId]
  · intro hon
    rw [sendMessageSocket_ok u body now onl s hr hc,
      sendMessageHttp_ok u body now s hr hc]
    simp only [if_pos hon]

theorem channel_partial_equivalence_witness :
    (sendMessageSocket "alice" ⟨"bob", "hi", none⟩ 5 [] emptyDB).2 =
      (sendMessageHttp "alice" ⟨"bob", "hi", none⟩ 5 emptyDB).2 :=
  (channel_partial_equivalence "alice" ⟨"bob", "hi", none⟩ 5 [] emptyDB
    (by decide) (by decide)).2.2.2.2.1 (by decide)

/-! ### Claim C3 -/

/-- Claim C3 is false on the code: with the receiver online, the sender's
immediate acknowledgement (`message-sent`) carries `read = false`, not
`read = true` — the handler emits the acknowledgement before flipping the
stored message. -/
theorem ack_read_flag_cex :
    ¬ (∀ r, (sendMessageSocket "alice" ⟨"bob", "hi", none⟩ 5 ["bob"] emptyDB).1 =
        Except.ok r → r.ack.read = true) := by
  intro h
  have := h ⟨⟨0, "alice", "bob", "hi", 5, false⟩, ⟨0, "alice", "bob", "hi", 5, false⟩⟩
    (by decide)
  simp at this

/-- Claim C3 (amended): the acknowledged and pushed message objects always
carry `read = false`; the stored message ends with `read = true` exactly when
the receiver has a live connection, and stays `read = false` otherwise. -/
theorem presence_read_flip (u : String) (body : Payload) (now : Nat)
    (onl : List String) (s : DB)
    (hr : body.receiverId ≠ "") (hc : body.content ≠ "") :
    (sendMessageSocket u body now onl s).1 =
      Except.ok { ack := newMessage u body now s, pushed := newMessage u body now s } ∧
    (newMessage u body now s).read = false ∧
    (sendMessageSocket u body now onl s).2.messages.getLast? =
      some (if body.receiverId ∈ onl
            then { newMessage u body now s with read := true }
            else newMessage u body now s) := by
  rw [sendMessageSocket_ok u body now onl s hr hc]
  refine ⟨rfl, rfl, ?_⟩
  by_cases hon : body.receiverId ∈ onl
  · simp only [if_pos hon, List.map_append, List.map_cons, List.map_nil]
    rw [List.getLast?_concat]
    simp [newMessage]
  · simp only [if_neg hon]
    rw [List.getLast?_concat]

theorem presence_read_flip_witness :
    (sendMessageSocket "alice" ⟨"bob", "hi", none⟩ 5 ["bob"] emptyDB).2.messages.getLast? =
      some { newMessage "alice" ⟨"bob", "hi", none⟩ 5 emptyDB with read := true } := by
  have h := (presence_read_flip "alice" ⟨"bob", "hi", none⟩ 5 ["bob"] emptyDB
    (by decide) (by decide)).2.2
  rwa [if_pos (by decide : ("bob" : String) ∈ ["bob"])] at h

/-! ### Claim C5 -/

/-- Claim C5 is false on the code: content consisting of a single space is
empty after trimming, yet the HTTP route accepts it — a message with empty
content is created and the summary record is written. -/
theorem empty_after_trim_accepted_cex :
    (sendMessageHttp "alice" ⟨"bob", " ", none⟩ 7 emptyDB).1 =
      Except.ok { id := 0, senderId := "alice", receiverId := "bob",
                  content := "", timestamp := 7, read := false } ∧
    (sendMessageHttp "alice" ⟨"bob", " ", none⟩ 7 emptyDB).2.messages.length = 1 ∧
    (sendMessageHttp "alice" ⟨"bob", " ", none⟩ 7 emptyDB).2.chats ≠ emptyDB.chats := by
  decide

/-- Claim C5 (amended): on both channels the send is rejected with the
invalid-argument error exactly when `receiverId` or `content` is the empty
string before trimming (the sender id is never validated and whitespace-only
content is accepted), and a rejected send leaves the store untouched. -/
theorem validation_pre_trim (u : String) (body : Payload) (now : Nat)
    (onl : List String) (s : DB) :
    ((sendMessageHttp u body now s).1 = Except.error ChatError.invalidArgument ↔
      body.receiverId = "" ∨ body.content = "") ∧
    ((body.receiverId = "" ∨ body.content = "") →
      (sendMessageHttp u body now s).2 = s) ∧
    ((sendMessageSocket u body now onl s).1 = Except.error ChatError.invalidArgument ↔
      body.receiverId = "" ∨ body.content = "") ∧
    ((body.receiverId = "" ∨ body.content = "") →
      (sendMessageSocket u body now onl s).2 = s) := by
  by_cases h : body.receiverId = "" ∨ body.content = ""
  · rw [sendMessageHttp_err u body now s h, sendMessageSocket_err u body now onl s h]
    exact ⟨by simp [h], fun _ => rfl, by simp [h], fun _ => rfl⟩
  · have hr : body.receiverId ≠ "" := fun hh => h (Or.inl hh)
    have hc : body.content ≠ "" := fun hh => h (Or.inr hh)
    rw [sendMessageHttp_ok u body now s hr hc,
      sendMessageSocket_ok u body now onl s hr hc]
    exact ⟨by simp [h], fun hh => absurd hh h, by simp [h], fun hh => absurd hh h⟩

theorem validation_pre_trim_witness :
    (sendMessageHttp "alice" ⟨"bob", "", none⟩ 3 emptyDB).2 = emptyDB :=
  (validation_pre_trim "alice" ⟨"bob", "", none⟩ 3 [] emptyDB).2.1 (Or.inr rfl)

/-! ### Claim C4 -/

/-- Claim C4 is false on the code: fetching history marks the unread inbound
message read in the store, but the sequence returned by that same call still
shows the pre-update value `read = false` (the response is built from the
query snapshots taken before the batch update). -/
theorem history_stale_read_cex :
    (¬ ∀ m ∈ (getMessages "alice" "bob" historyDemoDB).1, m.read = true) ∧
    (∀ m ∈ (getMessages "alice" "bob" historyDemoDB).2.messages, m.read = true) := by
  decide

/-- Claim C4 (amended): every history call batch-marks all unread inbound
messages read in the store, but the returned sequence is built from the
pre-update snapshots — every returned message is a record of the store as it
was before the call, so the just-marked messages still show `read = false`
in that same response. -/
theorem history_marks_store_returns_snapshot (c o : String) (s : DB) :
    (∀ m ∈ (getMessages c o s).2.messages,
      m.senderId = o → m.receiverId = c → m.read = true) ∧
    (∀ m ∈ (getMessages c o s).1, m ∈ s.messages) := by
  constructor
  · exact fun m hm hs hr => inbound_read_after_history c o s m hm hs hr
  · intro m hm
    have hm' : m ∈ sortOn leTs
        ((sortOn leTs (s.messages.filter fun y =>
          decide (y.senderId = c ∧ y.receiverId = o))) ++
         (sortOn leTs (s.messages.filter fun y =>
          decide (y.senderId = o ∧ y.receiverId = c)))) := hm
    have hmem := (sortOn_perm leTs _).mem_iff.mp hm'
    rcases List.mem_append.mp hmem with h | h
    · exact (List.mem_filter.mp ((sortOn_perm leTs _).mem_iff.mp h)).1
    · exact (List.mem_filter.mp ((sortOn_perm leTs _).mem_iff.mp h)).1

theorem history_marks_store_returns_snapshot_witness :
    (⟨0, "bob", "alice", "hi", 1, true⟩ : Message).read = true :=
  (history_marks_store_returns_snapshot "alice" "bob" historyDemoDB).1
    ⟨0, "bob", "alice", "hi", 1, true⟩ (by decide) rfl rfl

/-! ### Claim C6 -/

/-- Claim C6: the sequence returned by history is ordered by timestamp — a
strictly smaller timestamp always sits at a strictly earlier position, for
every store contents, hence regardless of which channel created the messages
or in which order their writes landed in the store. -/
theorem history_timestamp_ordering (c o : String) (s : DB)
    (i j : Fin (getMessages c o s).1.length)
    (hij : ((getMessages c o s).1.get i).timestamp <
      ((getMessages c o s).1.get j).timestamp) :
    (i : Nat) < (j : Nat) := by
  have hsort : ((getMessages c o s).1).Pairwise fun x y => leTs x y = true := by
    have heq : (getMessages c o s).1 = sortOn leTs
        ((sortOn leTs (s.messages.filter fun y =>
          decide (y.senderId = c ∧ y.receiverId = o))) ++
         (sortOn leTs (s.messages.filter fun y =>
          decide (y.senderId = o ∧ y.receiverId = c)))) := rfl
    rw [heq]
    exact sortOn_pairwise leTs leTs_trans leTs_total _
  rcases Nat.lt_trichotomy (i : Nat) (j : Nat) with h | h | h
  · exact h
  · exfalso
    have hij' : i = j := Fin.ext h
    rw [hij'] at hij
    omega
  · exfalso
    have hji : j < i := h
    have hpair := List.pairwise_iff_get.mp hsort j i hji
    simp only [leTs, decide_eq_true_iff] at hpair
    omega

theorem history_timestamp_ordering_witness :
    ((getMessages "alice" "bob" orderingDemoDB).1.get ⟨0, by decide⟩).timestamp <
      ((getMessages "alice" "bob" orderingDemoDB).1.get ⟨1, by decide⟩).timestamp ∧
    (0 : Nat) < 1 :=
  ⟨by decide, history_timestamp_ordering "alice" "bob" orderingDemoDB
    ⟨0, by decide⟩ ⟨1, by decide⟩ (by decide)⟩

/-! ### Claim C7 -/

/-- The global descending order claim C7 asserts of the conversations list. -/
def sortedDescByTime (l : List ConvDetails) : Prop :=
  l.Pairwise fun a b => b.lastMessageTime ≤ a.lastMessageTime

/-- Claim C7 is false on the code: with one chat record oriented
`participant1 = u` at time 50 and one oriented `participant2 = u` at time
100, the route returns the participant1 segment first, so the response is
[time 50, time 100] — not globally descending by lastMessageTime. -/
theorem conversations_not_sorted_cex :
    ¬ sortedDescByTime (getConversations "u" convDemoDB) := by
  unfold sortedDescByTime
  decide

/-- The first segment of the conversations response: the chat records with
the user as `participant1`, ordered descending by `lastMessageTime`, with the
live unread count and profile attached (the other participant read off the
`participant2` field). -/
def convSegmentP1 (u : String) (s : DB) : List ConvDetails :=
  (sortOn geTime (s.chats.filter fun kv =>
    decide (kv.2.participant1 = u))).map fun kv =>
    { chatId := kv.1, otherUserId := kv.2.participant2,
      lastMessage := kv.2.lastMessage, lastMessageTime := kv.2.lastMessageTime,
      unreadCount := (s.messages.filter fun m =>
        decide (m.senderId = kv.2.participant2 ∧ m.receiverId = u ∧
          m.read = false)).length,
      otherUser := (s.users.find? fun kv2 =>
        decide (kv2.1 = kv.2.participant2)).map Prod.snd }

/-- The second segment of the conversations response: the chat records with
the user as `participant2`, ordered descending by `lastMessageTime`, with the
other participant read off the `participant1` field. -/
def convSegmentP2 (u : String) (s : DB) : List ConvDetails :=
  (sortOn geTime (s.chats.filter fun kv =>
    decide (kv.2.participant2 = u))).map fun kv =>
    { chatId := kv.1, otherUserId := kv.2.participant1,
      lastMessage := kv.2.lastMessage, lastMessageTime := kv.2.lastMessageTime,
      unreadCount := (s.messages.filter fun m =>
        decide (m.senderId = kv.2.participant1 ∧ m.receiverId = u ∧
          m.read = false)).length,
      otherUser := (s.users.find? fun kv2 =>
        decide (kv2.1 = kv.2.participant1)).map Prod.snd }

/-- Claim C7 (amended): the conversations response is exactly the
concatenation of two identified segments — first the summaries whose chat
record has the user as `participant1`, then those with the user as
`participant2` — each segment individually sorted descending by
`lastMessageTime` with no global re-sort of the concatenation; every entry of
the first segment comes from a chat record with `participant1 = u` (the other
participant being its `participant2`), and symmetrically for the second. -/
theorem conversations_two_sorted_segments (u : String) (s : DB) :
    getConversations u s = convSegmentP1 u s ++ convSegmentP2 u s ∧
    sortedDescByTime (convSegmentP1 u s) ∧
    sortedDescByTime (convSegmentP2 u s) ∧
    (∀ cv ∈ convSegmentP1 u s, ∃ kv ∈ s.chats, kv.2.participant1 = u ∧
      cv.chatId = kv.1 ∧ cv.otherUserId = kv.2.participant2 ∧
      cv.lastMessage = kv.2.lastMessage ∧
      cv.lastMessageTime = kv.2.lastMessageTime) ∧
    (∀ cv ∈ convSegmentP2 u s, ∃ kv ∈ s.chats, kv.2.participant2 = u ∧
      cv.chatId = kv.1 ∧ cv.otherUserId = kv.2.participant1 ∧
      cv.lastMessage = kv.2.lastMessage ∧
      cv.lastMessageTime = kv.2.lastMessageTime) := by
  refine ⟨?_, ?_, ?_, ?_, ?_⟩
  · unfold getConversations convSegmentP1 convSegmentP2
    rw [List.map_append, List.map_map, List.map_map]
    rfl
  · unfold sortedDescByTime convSegmentP1
    rw [List.pairwise_map]
    exact (sortOn_pairwise geTime geTime_trans geTime_total _).imp
      fun hab => of_decide_eq_true hab
  · unfold sortedDescByTime convSegmentP2
    rw [List.pairwise_map]
    exact (sortOn_pairwise geTime geTime_trans geTime_total _).imp
      fun hab => of_decide_eq_true hab
  · intro cv hcv
    unfold convSegmentP1 at hcv
    rcases List.mem_map.mp hcv with ⟨kv, hkv, rfl⟩
    rcases List.mem_filter.mp ((sortOn_perm geTime _).mem_iff.mp hkv) with
      ⟨hmem, hdec⟩
    exact ⟨kv, hmem, of_decide_eq_true hdec, rfl, rfl, rfl, rfl⟩
  · intro cv hcv
    unfold convSegmentP2 at hcv
    rcases List.mem_map.mp hcv with ⟨kv, hkv, rfl⟩
    rcases List.mem_filter.mp ((sortOn_perm geTime _).mem_iff.mp hkv) with
      ⟨hmem, hdec⟩
    exact ⟨kv, hmem, of_decide_eq_true hdec, rfl, rfl, rfl, rfl⟩

theorem conversations_two_sorted_segments_witness :
    ∃ kv ∈ convDemoDB.chats, kv.2.participant1 = "u" ∧
      (⟨"b_u", "b", "x", 50, 0, none⟩ : ConvDetails).chatId = kv.1 ∧
      (⟨"b_u", "b", "x", 50, 0, none⟩ : ConvDetails).otherUserId =
        kv.2.participant2 ∧
      (⟨"b_u", "b", "x", 50, 0, none⟩ : ConvDetails).lastMessage =
        kv.2.lastMessage ∧
      (⟨"b_u", "b", "x", 50, 0, none⟩ : ConvDetails).lastMessageTime =
        kv.2.lastMessageTime :=
  (conversations_two_sorted_segments "u" convDemoDB).2.2.2.1
    ⟨"b_u", "b", "x", 50, 0, none⟩ (by decide)

/-! ### Claim C8 -/

/-- Claim C8: every conversation's unread count is computed live from the
message store at query time as the number of unread inbound messages from
that conversation's other participant; under the ghost fetched-ids invariant
(established at the initial state and preserved by every operation) it never
exceeds the number of inbound messages not yet returned by a history call;
and it is zero for a pair immediately after a history call for that pair. -/
theorem unread_count_live_and_bounded :
    (∀ u s, ∀ cv ∈ getConversations u s,
      cv.unreadCount = (inboundUnread u cv.otherUserId s.messages).length) ∧
    GInv initG ∧
    (∀ op g, GInv g → GInv (applyOpG op g)) ∧
    (∀ g, GInv g → ∀ u other,
      (inboundUnread u other g.db.messages).length ≤
        (g.db.messages.filter fun m => decide (m.senderId = other ∧
          m.receiverId = u ∧ ¬ m.id ∈ g.fetchedIds)).length) ∧
    (∀ c o s, ∀ cv ∈ getConversations c (getMessages c o s).2,
      cv.otherUserId = o → cv.unreadCount = 0) := by
  refine ⟨fun u s cv hcv => unreadCount_eq u s cv hcv, gInv_init,
    fun op g h => gInv_applyOpG op g h,
    fun g h u other => unread_le_unfetched g h u other, ?_⟩
  intro c o s cv hcv hother
  rw [unreadCount_eq c (getMessages c o s).2 cv hcv, hother,
    unread_zero_after_history c o s]
  rfl

theorem unread_count_live_and_bounded_witness :
    (⟨"alice_bob", "bob", "hi", 1, 0, none⟩ : ConvDetails).unreadCount = 0 :=
  unread_count_live_and_bounded.2.2.2.2 "alice" "bob" demoAfterSend
    ⟨"alice_bob", "bob", "hi", 1, 0, none⟩ (by decide) rfl

/-! ### Claim C9 -/

/-- Claim C9: on both channels the sender id of an accepted message is the
authenticated identity (req.user.uid on the route, socket.userId bound at
connect), the client-supplied sender field of the payload is ignored
entirely, and identical payloads sent under different authenticated
identities produce messages with different sender ids. -/
theorem sender_identity_from_token (u1 u2 : String) (body : Payload)
    (x : Option String) (now : Nat) (onl : List String) (s : DB) :
    sendMessageHttp u1 { body with clientSenderId := x } now s =
      sendMessageHttp u1 body now s ∧
    sendMessageSocket u1 { body with clientSenderId := x } now onl s =
      sendMessageSocket u1 body now onl s ∧
    (∀ m, (sendMessageHttp u1 body now s).1 = Except.ok m → m.senderId = u1) ∧
    (∀ r, (sendMessageSocket u1 body now onl s).1 = Except.ok r →
      r.ack.senderId = u1) ∧
    (u1 ≠ u2 → ∀ m1 m2, (sendMessageHttp u1 body now s).1 = Except.ok m1 →
      (sendMessageHttp u2 body now s).1 = Except.ok m2 →
      m1.senderId ≠ m2.senderId) := by
  obtain ⟨r0, c0, cs0⟩ := body
  refine ⟨rfl, rfl, ?_, ?_, ?_⟩
  · exact fun m hm => http_sender_eq u1 ⟨r0, c0, cs0⟩ now s m hm
  · exact fun r hm => socket_sender_eq u1 ⟨r0, c0, cs0⟩ now onl s r hm
  · intro hne m1 m2 h1 h2
    rw [http_sender_eq u1 ⟨r0, c0, cs0⟩ now s m1 h1,
      http_sender_eq u2 ⟨r0, c0, cs0⟩ now s m2 h2]
    exact hne

theorem sender_identity_from_token_witness :
    (⟨0, "alice", "bob", "hi", 3, false⟩ : Message).senderId ≠
      (⟨0, "carol", "bob", "hi", 3, false⟩ : Message).senderId :=
  (sender_identity_from_token "alice" "carol" ⟨"bob", "hi", none⟩
    (some "mallory") 3 [] emptyDB).2.2.2.2 (by decide)
    ⟨0, "alice", "bob", "hi", 3, false⟩ ⟨0, "carol", "bob", "hi", 3, false⟩
    (by decide) (by decide)

/-! ### Claim C10 -/

/-- Claim C10: no state-changing operation of the subsystem mutates a stored
message's id, senderId, receiverId, timestamp, or content; the only change
any operation makes to a stored message is setting `read` to true, and
`read` is never reset from true back to false. -/
theorem message_immutable_except_read (op : Op) (s : DB) (m : Message)
    (hm : m ∈ s.messages) :
    ∃ m' ∈ (applyOp op s).messages,
      m'.id = m.id ∧ m'.senderId = m.senderId ∧ m'.receiverId = m.receiverId ∧
      m'.timestamp = m.timestamp ∧ m'.content = m.content ∧
      (m'.read = m.read ∨ m'.read = true) ∧
      (m.read = true → m'.read = true) := by
  cases op with
  | httpSend u b n =>
    simp only [applyOp]
    by_cases hv : b.receiverId = "" ∨ b.content = ""
    · rw [sendMessageHttp_err u b n s hv]
      exact ⟨m, hm, rfl, rfl, rfl, rfl, rfl, Or.inl rfl, fun hh => hh⟩
    · have hr1 : b.receiverId ≠ "" := fun hh => hv (Or.inl hh)
      have hc1 : b.content ≠ "" := fun hh => hv (Or.inr hh)
      rw [sendMessageHttp_ok u b n s hr1 hc1]
      exact ⟨m, List.mem_append_left _ hm, rfl, rfl, rfl, rfl, rfl,
        Or.inl rfl, fun hh => hh⟩
  | socketSend u b n onl =>
    simp only [applyOp]
    by_cases hv : b.receiverId = "" ∨ b.content = ""
    · rw [sendMessageSocket_err u b n onl s hv]
      exact ⟨m, hm, rfl, rfl, rfl, rfl, rfl, Or.inl rfl, fun hh => hh⟩
    · have hr1 : b.receiverId ≠ "" := fun hh => hv (Or.inl hh)
      have hc1 : b.content ≠ "" := fun hh => hv (Or.inr hh)
      rw [sendMessageSocket_ok u b n onl s hr1 hc1]
      by_cases hon : b.receiverId ∈ onl
      · simp only [if_pos hon]
        refine ⟨if m.id = s.nextId then { m with read := true } else m,
          List.mem_map_of_mem _ (List.mem_append_left _ hm),
          ?_, ?_, ?_, ?_, ?_, ?_, ?_⟩ <;>
          by_cases hid : m.id = s.nextId <;> simp [hid]
      · simp only [if_neg hon]
        exact ⟨m, List.mem_append_left _ hm, rfl, rfl, rfl, rfl, rfl,
          Or.inl rfl, fun hh => hh⟩
  | historyFetch c o =>
    simp only [applyOp]
    rw [getMessages_snd_messages]
    refine ⟨if m.id ∈ unreadIdsOf c o s then { m with read := true } else m,
      List.mem_map_of_mem _ hm, ?_, ?_, ?_, ?_, ?_, ?_, ?_⟩ <;>
      by_cases hid : m.id ∈ unreadIdsOf c o s <;> simp [hid]

theorem message_immutable_except_read_witness :
    ∃ m' ∈ (applyOp (Op.historyFetch "alice" "bob") historyDemoDB).messages,
      m'.id = 0 ∧ m'.senderId = "bob" ∧ m'.receiverId = "alice" ∧
      m'.timestamp = 1 ∧ m'.content = "hi" ∧
      (m'.read = false ∨ m'.read = true) ∧ (false = true → m'.read = true) :=
  message_immutable_except_read (Op.historyFetch "alice" "bob") historyDemoDB
    ⟨0, "bob", "alice", "hi", 1, false⟩ (by decide)

end SkillSync
